import Mathlib

/-!
Shallow embedding of the price-level crossing detector implemented in
user_data/strategies/atr_level_signal.py (class ATRLevelSignal together with
the PriceLevel and SignalHistory models).

Prices are rationals.  A missing (NaN) OHLC cell is modelled as `none`, and
every comparison against a missing value is false, mirroring pandas/NumPy
semantics, under which the strategy's boolean masks are computed.
-/

/-- One candle of the OHLC dataframe handed to populate_indicators.
Each field may be missing (NaN). -/
structure Candle where
  opn : Option ℚ
  high : Option ℚ
  low : Option ℚ
  close : Option ℚ
  deriving DecidableEq

/-- Candle with all four OHLC fields present. -/
def mkC (o h l c : ℚ) : Candle := ⟨some o, some h, some l, some c⟩

/-- Comparison x < v with pandas NaN semantics: false when x is missing. -/
def oLtC (x : Option ℚ) (v : ℚ) : Bool :=
  match x with
  | some a => decide (a < v)
  | none => false

/-- Comparison x > v with pandas NaN semantics: false when x is missing. -/
def oGtC (x : Option ℚ) (v : ℚ) : Bool :=
  match x with
  | some a => decide (v < a)
  | none => false

/-- Row of the price_levels table (class PriceLevel).  The `active` and
`confirm_close` columns are Integer columns holding 1/0, as in the schema;
`direction` is the raw string stored in the database. -/
structure PriceLevel where
  id : Nat
  pair : String
  level : ℚ
  direction : String
  created_at : Nat
  active : Nat
  confirm_close : Nat
  deriving DecidableEq

/-- Per-candle output columns written by populate_indicators
(level_cross_up, level_cross_down, level_wick_up, level_wick_down,
level_id, level_price), initialised to zero before the level loop. -/
structure Flags where
  level_cross_up : Nat
  level_cross_down : Nat
  level_wick_up : Nat
  level_wick_down : Nat
  level_id : Nat
  level_price : ℚ
  deriving DecidableEq

/-- The all-zero row the columns are initialised with. -/
def initFlags : Flags := ⟨0, 0, 0, 0, 0, 0⟩

/-- Body-up cross mask (lines 383 and 409-411 of atr_level_signal.py):
close_prev < level and, with close confirmation, close > level, otherwise
open > level or close > level. -/
def crossUpCond (lp : ℚ) (confirm : Bool) (prev : Option Candle) (cur : Candle) : Bool :=
  let pc := Option.bind prev Candle.close
  if confirm then oLtC pc lp && oGtC cur.close lp
  else oLtC pc lp && (oGtC cur.opn lp || oGtC cur.close lp)

/-- Body-down cross mask (lines 441 and 467-469): mirror image of the
body-up cross. -/
def crossDownCond (lp : ℚ) (confirm : Bool) (prev : Option Candle) (cur : Candle) : Bool :=
  let pc := Option.bind prev Candle.close
  if confirm then oGtC pc lp && oLtC cur.close lp
  else oGtC pc lp && (oLtC cur.opn lp || oLtC cur.close lp)

/-- Wick-up sweep mask (lines 499-500): previous high below the level, the
current high above it, while the current body (open and close) stays below. -/
def wickUpCond (lp : ℚ) (prev : Option Candle) (cur : Candle) : Bool :=
  let ph := Option.bind prev Candle.high
  oLtC ph lp && oGtC cur.high lp && oLtC cur.close lp && oLtC cur.opn lp

/-- Wick-down sweep mask (lines 531-532): mirror image of the wick-up sweep. -/
def wickDownCond (lp : ℚ) (prev : Option Candle) (cur : Candle) : Bool :=
  let pl := Option.bind prev Candle.low
  oGtC pl lp && oLtC cur.low lp && oGtC cur.close lp && oGtC cur.opn lp

/-- Pair each candle with its predecessor (the shift(1) columns): entry i is
(candle i-1, candle i), with no predecessor for the first entry. -/
def mkPcs : Option Candle → List Candle → List (Option Candle × Candle)
  | _, [] => []
  | p, c :: cs => (p, c) :: mkPcs (some c) cs

/-- Boolean-mask column assignment: dataframe.loc[mask, col] = value updates
every row whose mask is true, leaving the rest untouched. -/
def setWhere (cond : Option Candle → Candle → Bool) (upd : Flags → Flags) :
    List (Option Candle × Candle) → List Flags → List Flags
  | [], rows => rows
  | _ :: _, [] => []
  | pc :: pcs, r :: rows =>
      (if cond pc.1 pc.2 then upd r else r) :: setWhere cond upd pcs rows

/-- The last-candle gate of populate_indicators: signals are written only when
last_candle_index >= 0, prev_candle is not None, and the scalar condition
recomputed on the last candle pair holds. -/
def lastGate (pcs : List (Option Candle × Candle)) (cond : Option Candle → Candle → Bool) : Bool :=
  match pcs[pcs.length - 1]? with
  | some (some p, c) => cond (some p) c
  | _ => false

/-- Column writes performed on rows matched by the cross-up mask. -/
def updCrossUp (lv : PriceLevel) (r : Flags) : Flags :=
  { r with level_cross_up := 1, level_id := lv.id, level_price := lv.level }

/-- Column writes performed on rows matched by the cross-down mask. -/
def updCrossDown (lv : PriceLevel) (r : Flags) : Flags :=
  { r with level_cross_down := 1, level_id := lv.id, level_price := lv.level }

/-- Column writes performed on rows matched by the wick-up mask. -/
def updWickUp (lv : PriceLevel) (r : Flags) : Flags :=
  { r with level_wick_up := 1, level_id := lv.id, level_price := lv.level }

/-- Column writes performed on rows matched by the wick-down mask. -/
def updWickDown (lv : PriceLevel) (r : Flags) : Flags :=
  { r with level_wick_down := 1, level_id := lv.id, level_price := lv.level }

/-- Processing of one level inside the loop of populate_indicators: the four
direction branches run in source order, each gated on the level direction and
on the last-candle condition, and each applies its boolean mask frame-wide. -/
def processLevel (pcs : List (Option Candle × Candle)) (lv : PriceLevel)
    (rows : List Flags) : List Flags :=
  let confirm := lv.confirm_close != 0
  let r1 := if (lv.direction == "up" || lv.direction == "both")
               && lastGate pcs (crossUpCond lv.level confirm)
            then setWhere (crossUpCond lv.level confirm) (updCrossUp lv) pcs rows
            else rows
  let r2 := if (lv.direction == "down" || lv.direction == "both")
               && lastGate pcs (crossDownCond lv.level confirm)
            then setWhere (crossDownCond lv.level confirm) (updCrossDown lv) pcs r1
            else r1
  let r3 := if (lv.direction == "wick_up" || lv.direction == "wick_both")
               && lastGate pcs (wickUpCond lv.level)
            then setWhere (wickUpCond lv.level) (updWickUp lv) pcs r2
            else r2
  if (lv.direction == "wick_down" || lv.direction == "wick_both")
     && lastGate pcs (wickDownCond lv.level)
  then setWhere (wickDownCond lv.level) (updWickDown lv) pcs r3
  else r3

/-- The level-crossing part of populate_indicators: initialise the signal
columns to zero, then fold the active levels through processLevel. -/
def populateFlags (candles : List Candle) (levels : List PriceLevel) : List Flags :=
  levels.foldl (fun rows lv => processLevel (mkPcs none candles) lv rows)
    (candles.map (fun _ => initFlags))

/-- Value of a crossing mask at row i (for stating frame-wide effects). -/
def maskAt (candles : List Candle) (cond : Option Candle → Candle → Bool) (i : Nat) : Bool :=
  match (mkPcs none candles)[i]? with
  | some pc => cond pc.1 pc.2
  | none => false

/-- The flags of the most recent candle (dataframe.iloc[len - 1]). -/
def lastRowFlags (candles : List Candle) (levels : List PriceLevel) : Flags :=
  ((populateFlags candles levels)[candles.length - 1]?).getD initFlags

/-- A signal event as recorded by send_telegram_notification: the signal_db_type
string plus the level id and price read from the candle row. -/
structure SignalEvent where
  signal_type : String
  level_id : Nat
  level_price : ℚ
  deriving DecidableEq

/-- Level-signal extraction of send_telegram_notification (lines 649-672): the
elif chain reads the flag columns of one candle row in priority order and
yields at most one event. -/
def eventsOfRow (r : Flags) : List SignalEvent :=
  if r.level_cross_up = 1 then [⟨"level_cross_up", r.level_id, r.level_price⟩]
  else if r.level_cross_down = 1 then [⟨"level_cross_down", r.level_id, r.level_price⟩]
  else if r.level_wick_up = 1 then [⟨"level_wick_up", r.level_id, r.level_price⟩]
  else if r.level_wick_down = 1 then [⟨"level_wick_down", r.level_id, r.level_price⟩]
  else []

/-- End-to-end detector: run the level loop over the candles and extract the
level signal events from the most recent candle row. -/
def detect (candles : List Candle) (levels : List PriceLevel) : List SignalEvent :=
  match (populateFlags candles levels)[candles.length - 1]? with
  | some r => eventsOfRow r
  | none => []

/-- A level fires a cross-up on a given candle pair: the direction branch is
taken and the body-up condition holds on the pair. -/
def fires_cross_up (lv : PriceLevel) (prev cur : Candle) : Bool :=
  (lv.direction == "up" || lv.direction == "both")
    && crossUpCond lv.level (lv.confirm_close != 0) (some prev) cur

/-- A level fires a cross-down on a given candle pair. -/
def fires_cross_down (lv : PriceLevel) (prev cur : Candle) : Bool :=
  (lv.direction == "down" || lv.direction == "both")
    && crossDownCond lv.level (lv.confirm_close != 0) (some prev) cur

/-- A level fires a wick-up sweep on a given candle pair. -/
def fires_wick_up (lv : PriceLevel) (prev cur : Candle) : Bool :=
  (lv.direction == "wick_up" || lv.direction == "wick_both")
    && wickUpCond lv.level (some prev) cur

/-- A level fires a wick-down sweep on a given candle pair. -/
def fires_wick_down (lv : PriceLevel) (prev cur : Candle) : Bool :=
  (lv.direction == "wick_down" || lv.direction == "wick_both")
    && wickDownCond lv.level (some prev) cur

/-- Row of the signal_history table (class SignalHistory). -/
structure SignalHistoryRec where
  id : Nat
  pair : String
  signal_type : String
  level_id : Option Nat
  level_price : Option ℚ
  prev_price : ℚ
  current_price : ℚ
  atr_value : Option ℚ
  created_at : Nat
  deriving DecidableEq

/-- Persistent state visible to the strategy: the price_levels table and the
append-only signal_history table. -/
structure DB where
  levels : List PriceLevel
  signals : List SignalHistoryRec
  deriving DecidableEq

/-- The optional pair filter of PriceLevel.get_levels. -/
def pairOk (p : Option String) (l : PriceLevel) : Bool :=
  match p with
  | some s => l.pair == s
  | none => true

/-- PriceLevel.get_levels: all rows with active == 1, optionally restricted
to one pair. -/
def get_levels (db : DB) (p : Option String) : List PriceLevel :=
  db.levels.filter (fun l => (l.active == 1) && pairOk p l)

/-- PriceLevel.deactivate_level: look up the row by primary key and clear its
active flag; the signal history is untouched. -/
def deactivate_level (db : DB) (lid : Nat) : DB :=
  { db with levels := db.levels.map (fun l => if l.id == lid then { l with active := 0 } else l) }

/-! ### Helper lemmas about the embedding -/

lemma mkPcs_length : ∀ (p : Option Candle) (cs : List Candle), (mkPcs p cs).length = cs.length
  | _, [] => rfl
  | p, c :: cs => by simp [mkPcs, mkPcs_length (some c) cs]

lemma mkPcs_getElem? : ∀ (p : Option Candle) (cs : List Candle) (i : Nat),
    (mkPcs p cs)[i]? = (cs[i]?).map (fun c => ((if i = 0 then p else cs[i-1]?), c))
  | _, [], i => by simp [mkPcs]
  | p, c :: cs, 0 => by simp [mkPcs]
  | p, c :: cs, (i+1) => by
      rw [mkPcs, List.getElem?_cons_succ, mkPcs_getElem? (some c) cs i]
      cases i with
      | zero => simp
      | succ j => simp

lemma setWhere_length (cond : Option Candle → Candle → Bool) (upd : Flags → Flags) :
    ∀ (pcs : List (Option Candle × Candle)) (rows : List Flags),
    (setWhere cond upd pcs rows).length = rows.length
  | [], rows => rfl
  | _ :: _, [] => rfl
  | pc :: pcs, r :: rows => by simp [setWhere, setWhere_length cond upd pcs rows]

lemma setWhere_getElem? (cond : Option Candle → Candle → Bool) (upd : Flags → Flags) :
    ∀ (pcs : List (Option Candle × Candle)) (rows : List Flags) (i : Nat),
    (setWhere cond upd pcs rows)[i]? = (rows[i]?).map (fun r =>
      match pcs[i]? with
      | some pc => if cond pc.1 pc.2 then upd r else r
      | none => r)
  | [], rows, i => by cases h : rows[i]? <;> simp [setWhere, h]
  | _ :: _, [], i => by simp [setWhere]
  | pc :: pcs, r :: rows, 0 => by simp [setWhere]
  | pc :: pcs, r :: rows, (i+1) => by
      simp [setWhere, setWhere_getElem? cond upd pcs rows i]

lemma branch_map_pres (f : Flags → Nat) (upd : Flags → Flags) (hupd : ∀ r, f (upd r) = f r)
    (b : Bool) (cond : Option Candle → Candle → Bool)
    (pcs : List (Option Candle × Candle)) (rows : List Flags) (i : Nat) :
    ((if b then setWhere cond upd pcs rows else rows)[i]?).map f = (rows[i]?).map f := by
  cases b
  · simp
  · rw [if_pos rfl, setWhere_getElem?]
    cases rows[i]? <;> cases pcs[i]? <;> simp [hupd]
    case some.some r pc => cases cond pc.1 pc.2 <;> simp [hupd]

lemma branch_length (b : Bool) (cond : Option Candle → Candle → Bool) (upd : Flags → Flags)
    (pcs : List (Option Candle × Candle)) (rows : List Flags) :
    (if b then setWhere cond upd pcs rows else rows).length = rows.length := by
  cases b <;> simp [setWhere_length]

lemma processLevel_length (pcs : List (Option Candle × Candle)) (lv : PriceLevel)
    (rows : List Flags) : (processLevel pcs lv rows).length = rows.length := by
  simp only [processLevel]
  rw [branch_length, branch_length, branch_length, branch_length]

lemma populateFlags_length (candles : List Candle) (levels : List PriceLevel) :
    (populateFlags candles levels).length = candles.length := by
  suffices h : ∀ (ls : List PriceLevel) (rows : List Flags),
      (ls.foldl (fun r lv => processLevel (mkPcs none candles) lv r) rows).length = rows.length by
    simp [populateFlags, h]
  intro ls
  induction ls with
  | nil => intro rows; rfl
  | cons lv ls ih => intro rows; simp [List.foldl_cons, ih, processLevel_length]

lemma getElem?_init (candles : List Candle) (i : Nat) :
    (candles.map (fun _ => initFlags))[i]? = (candles[i]?).map (fun _ => initFlags) :=
  List.getElem?_map _ candles i

lemma populate_single (candles : List Candle) (lv : PriceLevel) :
    populateFlags candles [lv]
      = processLevel (mkPcs none candles) lv (candles.map (fun _ => initFlags)) := rfl

lemma crossUp_branch_core (candles : List Candle) (lv : PriceLevel) (i : Nat) :
    Option.map Flags.level_cross_up
      (if lastGate (mkPcs none candles) (crossUpCond lv.level (lv.confirm_close != 0)) then
          setWhere (crossUpCond lv.level (lv.confirm_close != 0)) (updCrossUp lv)
            (mkPcs none candles) (candles.map (fun _ => initFlags))
        else (candles.map (fun _ => initFlags)))[i]?
      = (candles[i]?).map (fun _ =>
          if lastGate (mkPcs none candles) (crossUpCond lv.level (lv.confirm_close != 0))
              && maskAt candles (crossUpCond lv.level (lv.confirm_close != 0)) i
          then 1 else 0) := by
  by_cases hg : lastGate (mkPcs none candles) (crossUpCond lv.level (lv.confirm_close != 0)) = true
  · rw [if_pos hg, setWhere_getElem?, getElem?_init, hg]
    cases hc : candles[i]? with
    | none => simp
    | some c =>
      cases hp : (mkPcs none candles)[i]? with
      | none => simp [maskAt, hp, initFlags]
      | some pc =>
        cases hcond : crossUpCond lv.level (lv.confirm_close != 0) pc.1 pc.2 <;>
          simp [maskAt, hp, hcond, updCrossUp, initFlags]
  · rw [Bool.not_eq_true] at hg
    rw [if_neg (by rw [hg]; exact Bool.false_ne_true), getElem?_init, hg]
    cases hc : candles[i]? <;> simp [initFlags]

lemma crossUp_char_core (candles : List Candle) (lv : PriceLevel)
    (hdir : lv.direction = "up" ∨ lv.direction = "both") (i : Nat) :
    ((populateFlags candles [lv])[i]?).map Flags.level_cross_up
      = (candles[i]?).map (fun _ =>
          if lastGate (mkPcs none candles) (crossUpCond lv.level (lv.confirm_close != 0))
              && maskAt candles (crossUpCond lv.level (lv.confirm_close != 0)) i
          then 1 else 0) := by
  rw [populate_single]
  rcases hdir with hd | hd
  · simp only [processLevel, hd,
      show (("up" : String) == "up" || ("up" : String) == "both") = true from by decide,
      show (("up" : String) == "down" || ("up" : String) == "both") = false from by decide,
      show (("up" : String) == "wick_up" || ("up" : String) == "wick_both") = false from by decide,
      show (("up" : String) == "wick_down" || ("up" : String) == "wick_both") = false from by decide,
      Bool.true_and, Bool.false_and, Bool.false_eq_true, if_false]
    exact crossUp_branch_core candles lv i
  · simp only [processLevel, hd,
      show (("both" : String) == "up" || ("both" : String) == "both") = true from by decide,
      show (("both" : String) == "down" || ("both" : String) == "both") = true from by decide,
      show (("both" : String) == "wick_up" || ("both" : String) == "wick_both") = false from by decide,
      show (("both" : String) == "wick_down" || ("both" : String) == "wick_both") = false from by decide,
      Bool.true_and, Bool.false_and, Bool.false_eq_true, if_false]
    rw [branch_map_pres Flags.level_cross_up (updCrossDown lv) (fun r => rfl)]
    exact crossUp_branch_core candles lv i

lemma wickUp_branch_core (candles : List Candle) (lv : PriceLevel) (i : Nat) :
    Option.map Flags.level_wick_up
      (if lastGate (mkPcs none candles) (wickUpCond lv.level) then
          setWhere (wickUpCond lv.level) (updWickUp lv)
            (mkPcs none candles) (candles.map (fun _ => initFlags))
        else (candles.map (fun _ => initFlags)))[i]?
      = (candles[i]?).map (fun _ =>
          if lastGate (mkPcs none candles) (wickUpCond lv.level)
              && maskAt candles (wickUpCond lv.level) i
          then 1 else 0) := by
  by_cases hg : lastGate (mkPcs none candles) (wickUpCond lv.level) = true
  · rw [if_pos hg, setWhere_getElem?, getElem?_init, hg]
    cases hc : candles[i]? with
    | none => simp
    | some c =>
      cases hp : (mkPcs none candles)[i]? with
      | none => simp [maskAt, hp, initFlags]
      | some pc =>
        cases hcond : wickUpCond lv.level pc.1 pc.2 <;>
          simp [maskAt, hp, hcond, updWickUp, initFlags]
  · rw [Bool.not_eq_true] at hg
    rw [if_neg (by rw [hg]; exact Bool.false_ne_true), getElem?_init, hg]
    cases hc : candles[i]? <;> simp [initFlags]

lemma wickUp_char_core (candles : List Candle) (lv : PriceLevel)
    (hdir : lv.direction = "wick_up" ∨ lv.direction = "wick_both") (i : Nat) :
    ((populateFlags candles [lv])[i]?).map Flags.level_wick_up
      = (candles[i]?).map (fun _ =>
          if lastGate (mkPcs none candles) (wickUpCond lv.level)
              && maskAt candles (wickUpCond lv.level) i
          then 1 else 0) := by
  rw [populate_single]
  rcases hdir with hd | hd
  · simp only [processLevel, hd,
      show (("wick_up" : String) == "up" || ("wick_up" : String) == "both") = false from by decide,
      show (("wick_up" : String) == "down" || ("wick_up" : String) == "both") = false from by decide,
      show (("wick_up" : String) == "wick_up" || ("wick_up" : String) == "wick_both") = true from by decide,
      show (("wick_up" : String) == "wick_down" || ("wick_up" : String) == "wick_both") = false from by decide,
      Bool.true_and, Bool.false_and, Bool.false_eq_true, if_false]
    exact wickUp_branch_core candles lv i
  · simp only [processLevel, hd,
      show (("wick_both" : String) == "up" || ("wick_both" : String) == "both") = false from by decide,
      show (("wick_both" : String) == "down" || ("wick_both" : String) == "both") = false from by decide,
      show (("wick_both" : String) == "wick_up" || ("wick_both" : String) == "wick_both") = true from by decide,
      show (("wick_both" : String) == "wick_down" || ("wick_both" : String) == "wick_both") = true from by decide,
      Bool.true_and, Bool.false_and, Bool.false_eq_true, if_false]
    rw [branch_map_pres Flags.level_wick_up (updWickDown lv) (fun r => rfl)]
    exact wickUp_branch_core candles lv i

lemma getElem?_append_pair_fst (pre : List Candle) (p c : Candle) :
    (pre ++ [p, c])[pre.length]? = some p := by
  rw [List.getElem?_append_right (le_refl pre.length), Nat.sub_self]
  rfl

lemma getElem?_append_pair_snd (pre : List Candle) (p c : Candle) :
    (pre ++ [p, c])[pre.length + 1]? = some c := by
  rw [List.getElem?_append_right (Nat.le_succ_of_le (le_refl pre.length)),
    Nat.succ_sub (le_refl pre.length), Nat.sub_self]
  rfl

lemma pcs_append_last (pre : List Candle) (p c : Candle) :
    (mkPcs none (pre ++ [p, c]))[pre.length + 1]? = some (some p, c) := by
  rw [mkPcs_getElem?, getElem?_append_pair_snd, Option.map_some']
  rw [if_neg (Nat.succ_ne_zero pre.length), Nat.add_sub_cancel, getElem?_append_pair_fst]

lemma lastGate_append (pre : List Candle) (p c : Candle)
    (cond : Option Candle → Candle → Bool) :
    lastGate (mkPcs none (pre ++ [p, c])) cond = cond (some p) c := by
  unfold lastGate
  rw [mkPcs_length]
  have hlen : (pre ++ [p, c]).length = pre.length + 2 := by simp
  rw [hlen]
  have hidx : pre.length + 2 - 1 = pre.length + 1 := rfl
  rw [hidx, pcs_append_last]

lemma maskAt_append_last (pre : List Candle) (p c : Candle)
    (cond : Option Candle → Candle → Bool) :
    maskAt (pre ++ [p, c]) cond (pre.length + 1) = cond (some p) c := by
  unfold maskAt
  rw [pcs_append_last]

lemma crossUpCond_mkC (lp : ℚ) (confirm : Bool) (po ph pl pc co ch cl cc : ℚ) :
    crossUpCond lp confirm (some (mkC po ph pl pc)) (mkC co ch cl cc) = true ↔
      (pc < lp ∧ (if confirm then lp < cc else (lp < co ∨ lp < cc))) := by
  cases confirm <;> simp [crossUpCond, mkC, oLtC, oGtC]

lemma wickUpCond_mkC (lp : ℚ) (po ph pl pc co ch cl cc : ℚ) :
    wickUpCond lp (some (mkC po ph pl pc)) (mkC co ch cl cc) = true ↔
      (ph < lp ∧ lp < ch ∧ cc < lp ∧ co < lp) := by
  simp [wickUpCond, mkC, oLtC, oGtC, and_assoc]

/-- C1: for a level with direction up or both, the cross-up signal is reported
on the most recent candle exactly when the previous close is below the level
and, with close confirmation, the current close is above it, or, without close
confirmation, the current open or the current close is above it. -/
theorem crossUp_reported_iff (pre : List Candle) (po ph pl pc co ch cl cc : ℚ)
    (lv : PriceLevel) (hdir : lv.direction = "up" ∨ lv.direction = "both") :
    (lastRowFlags (pre ++ [mkC po ph pl pc, mkC co ch cl cc]) [lv]).level_cross_up = 1 ↔
      (pc < lv.level ∧
        (if lv.confirm_close ≠ 0 then lv.level < cc else (lv.level < co ∨ lv.level < cc))) := by
  have hchar := crossUp_char_core (pre ++ [mkC po ph pl pc, mkC co ch cl cc]) lv hdir
    (pre.length + 1)
  rw [getElem?_append_pair_snd, lastGate_append, maskAt_append_last, Bool.and_self] at hchar
  have hlen : (pre ++ [mkC po ph pl pc, mkC co ch cl cc]).length - 1 = pre.length + 1 := by
    simp
  cases hx : (populateFlags (pre ++ [mkC po ph pl pc, mkC co ch cl cc]) [lv])[pre.length + 1]? with
  | none => rw [hx] at hchar; simp at hchar
  | some r =>
    rw [hx, Option.map_some', Option.map_some'] at hchar
    have hrv : r.level_cross_up =
        (if crossUpCond lv.level (lv.confirm_close != 0)
            (some (mkC po ph pl pc)) (mkC co ch cl cc) = true then 1 else 0) := by
      exact Option.some_injective _ hchar
    unfold lastRowFlags
    rw [hlen, hx, Option.getD_some, hrv]
    have hbridge : (pc < lv.level ∧
        (if lv.confirm_close ≠ 0 then lv.level < cc else (lv.level < co ∨ lv.level < cc))) ↔
        crossUpCond lv.level (lv.confirm_close != 0)
          (some (mkC po ph pl pc)) (mkC co ch cl cc) = true := by
      rw [crossUpCond_mkC]
      by_cases hcc : lv.confirm_close = 0 <;> simp [hcc]
    rw [hbridge]
    cases hcond : crossUpCond lv.level (lv.confirm_close != 0)
        (some (mkC po ph pl pc)) (mkC co ch cl cc) <;> simp [hcond]

/-- Witness for C1: level 10, direction up, confirm_close false, previous
close 9, current open 11, current close 9.5: cross-up fires although the
close stayed below the level. -/
theorem crossUp_reported_iff_witness :
    (lastRowFlags [mkC 9 9 9 9, mkC 11 11 8 (mkRat 19 2)]
      [⟨7, "BTC/USDT", 10, "up", 0, 1, 0⟩]).level_cross_up = 1 :=
  (crossUp_reported_iff [] 9 9 9 9 11 11 8 (mkRat 19 2)
      ⟨7, "BTC/USDT", 10, "up", 0, 1, 0⟩ (Or.inl rfl)).mpr (by decide)

/-- C2: for a level with direction wick_up or wick_both, the wick-up signal is
reported on the most recent candle exactly when the previous high is below the
level, the current high is above it, and the current open and close are below it. -/
theorem wickUp_reported_iff (pre : List Candle) (po ph pl pc co ch cl cc : ℚ)
    (lv : PriceLevel) (hdir : lv.direction = "wick_up" ∨ lv.direction = "wick_both") :
    (lastRowFlags (pre ++ [mkC po ph pl pc, mkC co ch cl cc]) [lv]).level_wick_up = 1 ↔
      (ph < lv.level ∧ lv.level < ch ∧ cc < lv.level ∧ co < lv.level) := by
  have hchar := wickUp_char_core (pre ++ [mkC po ph pl pc, mkC co ch cl cc]) lv hdir
    (pre.length + 1)
  rw [getElem?_append_pair_snd, lastGate_append, maskAt_append_last, Bool.and_self] at hchar
  have hlen : (pre ++ [mkC po ph pl pc, mkC co ch cl cc]).length - 1 = pre.length + 1 := by
    simp
  cases hx : (populateFlags (pre ++ [mkC po ph pl pc, mkC co ch cl cc]) [lv])[pre.length + 1]? with
  | none => rw [hx] at hchar; simp at hchar
  | some r =>
    rw [hx, Option.map_some', Option.map_some'] at hchar
    have hrv : r.level_wick_up =
        (if wickUpCond lv.level (some (mkC po ph pl pc)) (mkC co ch cl cc) = true
         then 1 else 0) :=
      Option.some_injective _ hchar
    unfold lastRowFlags
    rw [hlen, hx, Option.getD_some, hrv]
    rw [show (ph < lv.level ∧ lv.level < ch ∧ cc < lv.level ∧ co < lv.level) ↔
        wickUpCond lv.level (some (mkC po ph pl pc)) (mkC co ch cl cc) = true from
      (wickUpCond_mkC lv.level po ph pl pc co ch cl cc).symm]
    cases hcond : wickUpCond lv.level (some (mkC po ph pl pc)) (mkC co ch cl cc) <;>
      simp [hcond]

/-- Witness for C2: level 10, previous high 9, current high 11, current open 8,
current close 8.5: the wick-up sweep fires. -/
theorem wickUp_reported_iff_witness :
    (lastRowFlags [mkC 8 9 8 8, mkC 8 11 8 (mkRat 17 2)]
      [⟨4, "BTC/USDT", 10, "wick_up", 0, 1, 0⟩]).level_wick_up = 1 :=
  (wickUp_reported_iff [] 8 9 8 8 8 11 8 (mkRat 17 2)
      ⟨4, "BTC/USDT", 10, "wick_up", 0, 1, 0⟩ (Or.inl rfl)).mpr
    (by decide)

/-- C4 counterexample: with a single up level at 10 (confirm_close on) and the
close sequence 9, 11, 9, 11, the evaluation flags candle index 1 as well, even
though the last candle has index 3: flags on candles earlier than the most
recent one do not all stay zero. -/
theorem earlier_candle_flag_cex :
    (populateFlags [mkC 9 9 9 9, mkC 11 11 11 11, mkC 9 9 9 9, mkC 11 11 11 11]
        [⟨7, "BTC/USDT", 10, "up", 0, 1, 1⟩])[1]? = some ⟨1, 0, 0, 0, 7, 10⟩ ∧
      1 < [mkC 9 9 9 9, mkC 11 11 11 11, mkC 9 9 9 9, mkC 11 11 11 11].length - 1 := by
  decide

/-- C4 amended: for a single level with direction up or both, the cross-up flag
of candle i is set exactly when the most recent candle pair satisfies the
level's cross-up condition (the gate) and the pair at i satisfies it too: the
write is gated on the last candle but applied to the whole frame. -/
theorem crossUp_flag_frame_char (candles : List Candle) (lv : PriceLevel)
    (hdir : lv.direction = "up" ∨ lv.direction = "both") (i : Nat) (r : Flags)
    (hr : (populateFlags candles [lv])[i]? = some r) :
    r.level_cross_up = 1 ↔
      (lastGate (mkPcs none candles) (crossUpCond lv.level (lv.confirm_close != 0)) = true ∧
        maskAt candles (crossUpCond lv.level (lv.confirm_close != 0)) i = true) := by
  have hchar := crossUp_char_core candles lv hdir i
  rw [hr, Option.map_some'] at hchar
  have hi : i < candles.length := by
    by_contra hge
    push_neg at hge
    rw [List.getElem?_eq_none_iff.mpr (by
        rw [populateFlags_length candles [lv]]; exact hge)] at hr
    exact Option.noConfusion hr
  cases hc : candles[i]? with
  | none =>
    rw [List.getElem?_eq_none_iff] at hc
    omega
  | some c =>
    rw [hc, Option.map_some'] at hchar
    have hval := Option.some_injective _ hchar
    rw [hval]
    cases hg : lastGate (mkPcs none candles) (crossUpCond lv.level (lv.confirm_close != 0)) <;>
      cases hm : maskAt candles (crossUpCond lv.level (lv.confirm_close != 0)) i <;>
      simp [hg, hm]

/-- Witness for the amended C4 theorem at the counterexample input: both the
gate and the mask at index 1 hold. -/
theorem crossUp_flag_frame_char_witness :
    lastGate (mkPcs none [mkC 9 9 9 9, mkC 11 11 11 11, mkC 9 9 9 9, mkC 11 11 11 11])
        (crossUpCond 10 ((1 : Nat) != 0)) = true ∧
      maskAt [mkC 9 9 9 9, mkC 11 11 11 11, mkC 9 9 9 9, mkC 11 11 11 11]
        (crossUpCond 10 ((1 : Nat) != 0)) 1 = true :=
  (crossUp_flag_frame_char
      [mkC 9 9 9 9, mkC 11 11 11 11, mkC 9 9 9 9, mkC 11 11 11 11]
      ⟨7, "BTC/USDT", 10, "up", 0, 1, 1⟩ (Or.inl rfl) 1 ⟨1, 0, 0, 0, 7, 10⟩
      (by decide)).mp rfl

/-- C3 counterexample: two up levels at 10 and 11 are each individually
satisfied by the candle pair (close 9, close 12), yet the combined evaluation
returns a single event, carrying only the second level's id and value. -/
theorem two_levels_single_event_cex :
    detect [mkC 9 9 9 9, mkC 12 12 12 12]
        [⟨1, "BTC/USDT", 10, "up", 0, 1, 1⟩, ⟨2, "BTC/USDT", 11, "up", 0, 1, 1⟩]
      = [⟨"level_cross_up", 2, 11⟩] ∧
    detect [mkC 9 9 9 9, mkC 12 12 12 12] [⟨1, "BTC/USDT", 10, "up", 0, 1, 1⟩]
      = [⟨"level_cross_up", 1, 10⟩] ∧
    detect [mkC 9 9 9 9, mkC 12 12 12 12] [⟨2, "BTC/USDT", 11, "up", 0, 1, 1⟩]
      = [⟨"level_cross_up", 2, 11⟩] := by decide

/-- C3 amended: the detector returns at most one signal event per evaluation,
because the flag columns are shared between levels and the event extraction is
a first-match chain over one row. -/
theorem detect_at_most_one_event (candles : List Candle) (levels : List PriceLevel) :
    (detect candles levels).length ≤ 1 := by
  unfold detect
  cases hx : (populateFlags candles levels)[candles.length - 1]? with
  | none => simp
  | some r =>
    show (eventsOfRow r).length ≤ 1
    unfold eventsOfRow
    split_ifs <;> simp

/-- C6: with no active level for the pair, the evaluation sets no flag on any
candle and the detector returns no event, regardless of the candle data. -/
theorem empty_levels_empty_result (candles : List Candle) (db : DB) (p : String)
    (h : get_levels db (some p) = []) :
    detect candles (get_levels db (some p)) = [] ∧
      ∀ r ∈ populateFlags candles (get_levels db (some p)), r = initFlags := by
  rw [h]
  have hpop : populateFlags candles [] = candles.map (fun _ => initFlags) := rfl
  constructor
  · unfold detect
    rw [hpop, getElem?_init]
    cases candles[candles.length - 1]? <;> rfl
  · rw [hpop]
    intro r hr
    obtain ⟨c, _, hc⟩ := List.mem_map.mp hr
    exact hc.symm

/-- Witness for C6: a database holding one deactivated level for the pair and
one active level for another pair yields no event on a crossing candle pair. -/
theorem empty_levels_empty_result_witness :
    detect [mkC 9 9 9 9, mkC 12 12 12 12]
      (get_levels ⟨[⟨1, "BTC/USDT", 10, "up", 0, 0, 0⟩, ⟨2, "ETH/USDT", 10, "up", 0, 1, 0⟩], []⟩
        (some "BTC/USDT")) = [] :=
  (empty_levels_empty_result [mkC 9 9 9 9, mkC 12 12 12 12]
      ⟨[⟨1, "BTC/USDT", 10, "up", 0, 0, 0⟩, ⟨2, "ETH/USDT", 10, "up", 0, 1, 0⟩], []⟩
      "BTC/USDT" (by decide)).1

lemma processLevel_unknown_dir (pcs : List (Option Candle × Candle)) (lv : PriceLevel)
    (h : lv.direction ∉ (["up", "down", "both", "wick_up", "wick_down", "wick_both"] : List String)) :
    ∀ rows, processLevel pcs lv rows = rows := by
  intro rows
  simp only [List.mem_cons, List.not_mem_nil, or_false, not_or] at h
  obtain ⟨h1, h2, h3, h4, h5, h6⟩ := h
  unfold processLevel
  rw [beq_eq_false_iff_ne.mpr h1, beq_eq_false_iff_ne.mpr h2, beq_eq_false_iff_ne.mpr h3,
    beq_eq_false_iff_ne.mpr h4, beq_eq_false_iff_ne.mpr h5, beq_eq_false_iff_ne.mpr h6]
  simp

/-- C7: a level whose direction string is none of the six known values takes
no branch: it sets no flag, raises nothing, and the evaluation of the other
levels is exactly the evaluation without it. -/
theorem unknown_direction_ignored (candles : List Candle) (lv : PriceLevel)
    (l1 l2 : List PriceLevel)
    (h : lv.direction ∉ (["up", "down", "both", "wick_up", "wick_down", "wick_both"] : List String)) :
    populateFlags candles (l1 ++ lv :: l2) = populateFlags candles (l1 ++ l2) ∧
      detect candles (l1 ++ lv :: l2) = detect candles (l1 ++ l2) := by
  have hpp : populateFlags candles (l1 ++ lv :: l2) = populateFlags candles (l1 ++ l2) := by
    unfold populateFlags
    rw [List.foldl_append, List.foldl_append, List.foldl_cons,
      processLevel_unknown_dir (mkPcs none candles) lv h]
  refine ⟨hpp, ?_⟩
  unfold detect
  rw [hpp]

/-- Witness for C7: a level with direction sideways between two known levels
changes nothing in the evaluation. -/
theorem unknown_direction_ignored_witness :
    populateFlags [mkC 9 9 9 9, mkC 12 12 12 12]
        ([⟨1, "BTC/USDT", 10, "up", 0, 1, 1⟩] ++ ⟨9, "BTC/USDT", 10, "sideways", 0, 1, 0⟩ ::
          [⟨2, "BTC/USDT", 11, "up", 0, 1, 1⟩])
      = populateFlags [mkC 9 9 9 9, mkC 12 12 12 12]
          ([⟨1, "BTC/USDT", 10, "up", 0, 1, 1⟩] ++ [⟨2, "BTC/USDT", 11, "up", 0, 1, 1⟩]) :=
  (unknown_direction_ignored [mkC 9 9 9 9, mkC 12 12 12 12]
      ⟨9, "BTC/USDT", 10, "sideways", 0, 1, 0⟩
      [⟨1, "BTC/USDT", 10, "up", 0, 1, 1⟩] [⟨2, "BTC/USDT", 11, "up", 0, 1, 1⟩]
      (by decide)).1

/-- C8 counterexample: the last candle has a missing open, yet the detector
does not skip it: with previous close 9 below the level 10 and current close
12 above it, the cross-up event is still produced. -/
theorem missing_field_still_fires_cex :
    (⟨none, some 12, some 8, some 12⟩ : Candle).opn = none ∧
    detect [mkC 9 9 9 9, ⟨none, some 12, some 8, some 12⟩]
        [⟨3, "BTC/USDT", 10, "up", 0, 1, 0⟩]
      = [⟨"level_cross_up", 3, 10⟩] := by decide

lemma conds_false_blank (lp : ℚ) (b : Bool) (prev : Option Candle) (c : Candle)
    (ho : c.opn = none) (hh : c.high = none) (hl : c.low = none) (hc : c.close = none) :
    crossUpCond lp b prev c = false ∧ crossDownCond lp b prev c = false ∧
      wickUpCond lp prev c = false ∧ wickDownCond lp prev c = false := by
  cases b <;>
    simp [crossUpCond, crossDownCond, wickUpCond, wickDownCond, ho, hh, hl, hc, oLtC, oGtC]

lemma getElem?_append_singleton (pre : List Candle) (c : Candle) :
    (pre ++ [c])[pre.length]? = some c := by
  rw [List.getElem?_append_right (le_refl pre.length), Nat.sub_self]
  rfl

lemma pcs_append_singleton (pre : List Candle) (c : Candle) :
    (mkPcs none (pre ++ [c]))[pre.length]?
      = some ((if pre.length = 0 then none else (pre ++ [c])[pre.length - 1]?), c) := by
  rw [mkPcs_getElem?, getElem?_append_singleton, Option.map_some']

lemma lastGate_blank (pre : List Candle) (c : Candle)
    (cond : Option Candle → Candle → Bool) (hcf : ∀ p : Candle, cond (some p) c = false) :
    lastGate (mkPcs none (pre ++ [c])) cond = false := by
  unfold lastGate
  rw [mkPcs_length]
  have hlen : (pre ++ [c]).length = pre.length + 1 := by simp
  rw [hlen, Nat.add_sub_cancel, pcs_append_singleton]
  cases hslot : (if pre.length = 0 then none else (pre ++ [c])[pre.length - 1]?) with
  | none => rfl
  | some p => exact hcf p

lemma processLevel_no_gate (pcs : List (Option Candle × Candle)) (lv : PriceLevel)
    (rows : List Flags)
    (h1 : lastGate pcs (crossUpCond lv.level (lv.confirm_close != 0)) = false)
    (h2 : lastGate pcs (crossDownCond lv.level (lv.confirm_close != 0)) = false)
    (h3 : lastGate pcs (wickUpCond lv.level) = false)
    (h4 : lastGate pcs (wickDownCond lv.level) = false) :
    processLevel pcs lv rows = rows := by
  simp only [processLevel]
  rw [h1, h2, h3, h4]
  simp

lemma foldl_processLevel_fix (pcs : List (Option Candle × Candle))
    (hfix : ∀ (lv : PriceLevel) (rows : List Flags), processLevel pcs lv rows = rows) :
    ∀ (ls : List PriceLevel) (rows : List Flags),
      ls.foldl (fun r lv => processLevel pcs lv r) rows = rows
  | [], _ => rfl
  | lv :: ls, rows => by
      rw [List.foldl_cons, hfix lv rows, foldl_processLevel_fix pcs hfix ls rows]

/-- C8 amended: when every OHLC field of the last candle is missing, every
crossing condition on the last pair evaluates to false, so no level writes any
flag and the detector returns an empty result with no partial signals. -/
theorem missing_last_candle_empty (pre : List Candle) (c : Candle)
    (levels : List PriceLevel)
    (ho : c.opn = none) (hh : c.high = none) (hl : c.low = none) (hc : c.close = none) :
    detect (pre ++ [c]) levels = [] ∧
      ∀ r ∈ populateFlags (pre ++ [c]) levels, r = initFlags := by
  have hfix : ∀ (lv : PriceLevel) (rows : List Flags),
      processLevel (mkPcs none (pre ++ [c])) lv rows = rows := by
    intro lv rows
    exact processLevel_no_gate _ lv rows
      (lastGate_blank pre c _ (fun p =>
        (conds_false_blank lv.level (lv.confirm_close != 0) (some p) c ho hh hl hc).1))
      (lastGate_blank pre c _ (fun p =>
        (conds_false_blank lv.level (lv.confirm_close != 0) (some p) c ho hh hl hc).2.1))
      (lastGate_blank pre c _ (fun p =>
        (conds_false_blank lv.level (lv.confirm_close != 0) (some p) c ho hh hl hc).2.2.1))
      (lastGate_blank pre c _ (fun p =>
        (conds_false_blank lv.level (lv.confirm_close != 0) (some p) c ho hh hl hc).2.2.2))
  have hpop : populateFlags (pre ++ [c]) levels = (pre ++ [c]).map (fun _ => initFlags) :=
    foldl_processLevel_fix _ hfix levels _
  constructor
  · unfold detect
    rw [hpop, getElem?_init]
    cases (pre ++ [c])[(pre ++ [c]).length - 1]? <;> rfl
  · rw [hpop]
    intro r hr
    obtain ⟨a, _, ha⟩ := List.mem_map.mp hr
    exact ha.symm

/-- Witness for the amended C8 theorem: a last candle with all four OHLC
fields missing produces no event and no flag. -/
theorem missing_last_candle_empty_witness :
    detect [mkC 9 9 9 9, ⟨none, none, none, none⟩]
      [⟨3, "BTC/USDT", 10, "up", 0, 1, 0⟩] = [] :=
  (missing_last_candle_empty [mkC 9 9 9 9] ⟨none, none, none, none⟩
      [⟨3, "BTC/USDT", 10, "up", 0, 1, 0⟩] rfl rfl rfl rfl).1

lemma filter_deactivate (lid : Nat) (p : Option String) : ∀ ls : List PriceLevel,
    (ls.map (fun l => if l.id == lid then { l with active := 0 } else l)).filter
        (fun l => (l.active == 1) && pairOk p l)
      = (ls.filter (fun l => (l.active == 1) && pairOk p l)).filter (fun l => l.id != lid)
  | [] => rfl
  | a :: ls => by
    rw [List.map_cons, List.filter_cons, List.filter_cons]
    by_cases hid : (a.id == lid) = true
    · rw [if_pos hid]
      have hact : ((({ a with active := 0 } : PriceLevel)).active == 1
          && pairOk p { a with active := 0 }) = false := rfl
      have hne : (a.id != lid) = false := by simp [bne, hid]
      rw [hact]
      simp only [Bool.false_eq_true, if_false]
      rw [filter_deactivate lid p ls]
      by_cases hpred : ((a.active == 1) && pairOk p a) = true
      · rw [if_pos hpred, List.filter_cons, hne]
        simp
      · rw [if_neg hpred]
    · rw [if_neg hid]
      have hne : (a.id != lid) = true := by
        simp only [bne]
        rw [Bool.not_eq_true] at hid
        rw [hid]
        rfl
      rw [filter_deactivate lid p ls]
      by_cases hpred : ((a.active == 1) && pairOk p a) = true
      · rw [if_pos hpred, if_pos hpred, List.filter_cons, hne]
        simp
      · rw [if_neg hpred, if_neg hpred]

/-- C9: deactivating a level removes exactly the rows with that id from the
active-level listing used by later evaluations, leaves every other listed
level in place, and leaves the recorded signal history untouched. -/
theorem deactivate_removes_level_keeps_history (db : DB) (lid : Nat) (p : Option String) :
    (deactivate_level db lid).signals = db.signals ∧
      get_levels (deactivate_level db lid) p
        = (get_levels db p).filter (fun l => l.id != lid) ∧
      ∀ l ∈ get_levels (deactivate_level db lid) p, l.id ≠ lid := by
  refine ⟨rfl, filter_deactivate lid p db.levels, ?_⟩
  intro l hl
  rw [show get_levels (deactivate_level db lid) p
      = (get_levels db p).filter (fun l => l.id != lid) from filter_deactivate lid p db.levels]
    at hl
  have := List.of_mem_filter hl
  exact bne_iff_ne.mp this

/-- C10: every crossing and wick condition uses strict inequalities, so a
price exactly at the level never satisfies the comparison that reads it: a
previous close at the level blocks both body crosses; with close confirmation
a current close at the level blocks both body crosses; without confirmation a
current open and close both at the level block both body crosses; and any of
the four prices read by a wick sweep sitting exactly at the level blocks that
sweep. -/
theorem exact_touch_never_triggers (lp : ℚ) (b : Bool) (po ph pl pc co ch cl cc : ℚ) :
    (pc = lp → crossUpCond lp b (some (mkC po ph pl pc)) (mkC co ch cl cc) = false ∧
        crossDownCond lp b (some (mkC po ph pl pc)) (mkC co ch cl cc) = false) ∧
    (b = true → cc = lp → crossUpCond lp b (some (mkC po ph pl pc)) (mkC co ch cl cc) = false ∧
        crossDownCond lp b (some (mkC po ph pl pc)) (mkC co ch cl cc) = false) ∧
    (co = lp → cc = lp → crossUpCond lp b (some (mkC po ph pl pc)) (mkC co ch cl cc) = false ∧
        crossDownCond lp b (some (mkC po ph pl pc)) (mkC co ch cl cc) = false) ∧
    ((ph = lp ∨ ch = lp ∨ co = lp ∨ cc = lp) →
        wickUpCond lp (some (mkC po ph pl pc)) (mkC co ch cl cc) = false) ∧
    ((pl = lp ∨ cl = lp ∨ co = lp ∨ cc = lp) →
        wickDownCond lp (some (mkC po ph pl pc)) (mkC co ch cl cc) = false) := by
  refine ⟨?_, ?_, ?_, ?_, ?_⟩
  · rintro rfl
    cases b <;> simp [crossUpCond, crossDownCond, mkC, oLtC, oGtC, lt_irrefl]
  · rintro rfl rfl
    simp [crossUpCond, crossDownCond, mkC, oLtC, oGtC, lt_irrefl]
  · rintro rfl rfl
    cases b <;> simp [crossUpCond, crossDownCond, mkC, oLtC, oGtC, lt_irrefl]
  · rintro (rfl | rfl | rfl | rfl) <;> simp [wickUpCond, mkC, oLtC, oGtC, lt_irrefl]
  · rintro (rfl | rfl | rfl | rfl) <;> simp [wickDownCond, mkC, oLtC, oGtC, lt_irrefl]

/-- Witness for C10: with the level at 10, a previous close exactly at 10
blocks the body crosses, and a current high exactly at 10 blocks the wick-up
sweep. -/
theorem exact_touch_never_triggers_witness :
    crossUpCond 10 true (some (mkC 9 9 9 10)) (mkC 11 11 11 11) = false ∧
      wickUpCond 10 (some (mkC 9 9 9 9)) (mkC 9 10 9 9) = false :=
  ⟨((exact_touch_never_triggers 10 true 9 9 9 10 11 11 11 11).1 rfl).1,
    (exact_touch_never_triggers 10 true 9 9 9 9 9 10 9 9).2.2.2.1 (Or.inr (Or.inl rfl))⟩

lemma oLtC_oGtC_exclusive (x : Option ℚ) (v : ℚ) :
    oLtC x v = true → oGtC x v = true → False := by
  cases x with
  | none => simp [oLtC]
  | some a =>
    simp only [oLtC, oGtC, decide_eq_true_eq]
    intro h1 h2
    exact lt_asymm h1 h2

lemma crossUpCond_fst (lp : ℚ) (b : Bool) (prev : Option Candle) (cur : Candle)
    (h : crossUpCond lp b prev cur = true) :
    oLtC (Option.bind prev Candle.close) lp = true := by
  cases b
  · rw [show crossUpCond lp false prev cur
        = (oLtC (Option.bind prev Candle.close) lp
            && (oGtC cur.opn lp || oGtC cur.close lp)) from rfl] at h
    rw [Bool.and_eq_true] at h
    exact h.1
  · rw [show crossUpCond lp true prev cur
        = (oLtC (Option.bind prev Candle.close) lp && oGtC cur.close lp) from rfl] at h
    rw [Bool.and_eq_true] at h
    exact h.1

lemma crossDownCond_fst (lp : ℚ) (b : Bool) (prev : Option Candle) (cur : Candle)
    (h : crossDownCond lp b prev cur = true) :
    oGtC (Option.bind prev Candle.close) lp = true := by
  cases b
  · rw [show crossDownCond lp false prev cur
        = (oGtC (Option.bind prev Candle.close) lp
            && (oLtC cur.opn lp || oLtC cur.close lp)) from rfl] at h
    rw [Bool.and_eq_true] at h
    exact h.1
  · rw [show crossDownCond lp true prev cur
        = (oGtC (Option.bind prev Candle.close) lp && oLtC cur.close lp) from rfl] at h
    rw [Bool.and_eq_true] at h
    exact h.1

lemma wickUpCond_close (lp : ℚ) (prev : Option Candle) (cur : Candle)
    (h : wickUpCond lp prev cur = true) : oLtC cur.close lp = true := by
  simp only [wickUpCond, Bool.and_eq_true] at h
  tauto

lemma wickDownCond_close (lp : ℚ) (prev : Option Candle) (cur : Candle)
    (h : wickDownCond lp prev cur = true) : oGtC cur.close lp = true := by
  simp only [wickDownCond, Bool.and_eq_true] at h
  tauto

/-- C5 counterexample: an up level firing a body cross and a wick-down level
firing a sweep on the same candle are not recorded as two events: one event is
produced, whose kind comes from the first level but whose id and value come
from the second. -/
theorem priority_single_event_cex :
    fires_cross_up ⟨1, "BTC/USDT", 10, "up", 0, 1, 1⟩ (mkC 9 9 6 9)
        ⟨some 11, some 12, some 4, some 12⟩ = true ∧
    fires_wick_down ⟨2, "BTC/USDT", 5, "wick_down", 0, 1, 0⟩ (mkC 9 9 6 9)
        ⟨some 11, some 12, some 4, some 12⟩ = true ∧
    detect [mkC 9 9 6 9, ⟨some 11, some 12, some 4, some 12⟩]
        [⟨1, "BTC/USDT", 10, "up", 0, 1, 1⟩, ⟨2, "BTC/USDT", 5, "wick_down", 0, 1, 0⟩]
      = [⟨"level_cross_up", 2, 5⟩] := by decide

/-- C5 amended: per level and candle pair at most one signal kind fires, and
the extraction emits at most one event per candle, picking the first set flag
in the priority order cross_up, cross_down, wick_up, wick_down; several levels
firing together are not recorded as separate events. -/
theorem one_kind_per_level_and_priority :
    (∀ (lv : PriceLevel) (prev cur : Candle),
        (fires_cross_up lv prev cur).toNat + (fires_cross_down lv prev cur).toNat
          + (fires_wick_up lv prev cur).toNat + (fires_wick_down lv prev cur).toNat ≤ 1) ∧
    (∀ r : Flags, (eventsOfRow r).length ≤ 1
        ∧ (r.level_cross_up = 1 →
            eventsOfRow r = [⟨"level_cross_up", r.level_id, r.level_price⟩])
        ∧ (r.level_cross_up ≠ 1 → r.level_cross_down = 1 →
            eventsOfRow r = [⟨"level_cross_down", r.level_id, r.level_price⟩])
        ∧ (r.level_cross_up ≠ 1 → r.level_cross_down ≠ 1 → r.level_wick_up = 1 →
            eventsOfRow r = [⟨"level_wick_up", r.level_id, r.level_price⟩])
        ∧ (r.level_cross_up ≠ 1 → r.level_cross_down ≠ 1 → r.level_wick_up ≠ 1 →
            r.level_wick_down = 1 →
            eventsOfRow r = [⟨"level_wick_down", r.level_id, r.level_price⟩])) := by
  constructor
  · intro lv prev cur
    unfold fires_cross_up fires_cross_down fires_wick_up fires_wick_down
    by_cases h1 : lv.direction = "up"
    · rw [h1]
      cases hcu : crossUpCond lv.level (lv.confirm_close != 0) (some prev) cur <;> simp
    by_cases h2 : lv.direction = "down"
    · rw [h2]
      cases hcd : crossDownCond lv.level (lv.confirm_close != 0) (some prev) cur <;> simp
    by_cases h3 : lv.direction = "both"
    · rw [h3]
      cases hcu : crossUpCond lv.level (lv.confirm_close != 0) (some prev) cur <;>
        cases hcd : crossDownCond lv.level (lv.confirm_close != 0) (some prev) cur <;>
        simp
      exact absurd (oLtC_oGtC_exclusive _ _
        (crossUpCond_fst _ _ _ _ hcu) (crossDownCond_fst _ _ _ _ hcd)) not_false
    by_cases h4 : lv.direction = "wick_up"
    · rw [h4]
      cases hwu : wickUpCond lv.level (some prev) cur <;> simp
    by_cases h5 : lv.direction = "wick_down"
    · rw [h5]
      cases hwd : wickDownCond lv.level (some prev) cur <;> simp
    by_cases h6 : lv.direction = "wick_both"
    · rw [h6]
      cases hwu : wickUpCond lv.level (some prev) cur <;>
        cases hwd : wickDownCond lv.level (some prev) cur <;>
        simp
      exact absurd (oLtC_oGtC_exclusive _ _
        (wickUpCond_close _ _ _ hwu) (wickDownCond_close _ _ _ hwd)) not_false
    · rw [beq_eq_false_iff_ne.mpr h1, beq_eq_false_iff_ne.mpr h2,
        beq_eq_false_iff_ne.mpr h3, beq_eq_false_iff_ne.mpr h4,
        beq_eq_false_iff_ne.mpr h5, beq_eq_false_iff_ne.mpr h6]
      simp
  · intro r
    refine ⟨?_, ?_, ?_, ?_, ?_⟩
    · unfold eventsOfRow
      split_ifs <;> simp
    · intro hcu
      simp [eventsOfRow, hcu]
    · intro hcu hcd
      simp [eventsOfRow, hcu, hcd]
    · intro hcu hcd hwu
      simp [eventsOfRow, hcu, hcd, hwu]
    · intro hcu hcd hwu hwd
      simp [eventsOfRow, hcu, hcd, hwu, hwd]

/-- Witness for the amended C5 theorem: a row with only the cross-up flag set
yields exactly the cross-up event with the row's id and value. -/
theorem one_kind_per_level_and_priority_witness :
    eventsOfRow ⟨1, 0, 0, 0, 5, 10⟩ = [⟨"level_cross_up", 5, 10⟩] :=
  (one_kind_per_level_and_priority.2 ⟨1, 0, 0, 0, 5, 10⟩).2.1 rfl
